import Mathlib

/-!
Shallow embedding of `git-backup/watcher.py`: a filesystem watcher that mirrors a
source directory into a git repository (via rsync) and, after each debounced sync
pass, stages all changes, derives a tag list from the changed paths, commits and
pushes.

The embedding follows the Python source:

* `FILE_TAG_MAP` is the module-level routing table (a Python `dict`; since Python 3.7
  a `dict` iterates in insertion order, so it is embedded as an ordered association
  list in the authored order).
* `classifyPath` is the inner `for prefix, tag in FILE_TAG_MAP.items(): ... else:`
  loop of `BackupManager.get_stage_details` (first match in declaration order,
  `"misc"` fallback via the `for`/`else`).
* `get_stage_details` embeds `BackupManager.get_stage_details`, taking the porcelain
  status lines (the output of `git status --porcelain`, already split into lines)
  as its input; the git call itself is the external toolchain boundary.
* `commit_and_push_if_needed` and `sync_once` embed the corresponding methods as
  functions from an oracle describing the external collaborators (status output,
  push outcomes, exceptions raised by the subprocess / GitPython calls) to the
  sequence of side-effecting actions performed plus the exception, if any, that
  escapes the method.
* `on_any_event_arm`, `flush_if_quiet_runs`, `runSched` embed the
  `DebouncedSyncHandler` state machine.  Wall-clock instants (`time.time()` floats)
  are modelled as rationals; a `threading.Timer` is modelled by its scheduled fire
  instant, and a run of the handler over a sorted stream of notification instants
  assumes each armed timer either is cancelled by a strictly earlier subsequent
  notification or fires exactly at its scheduled instant.

Python string primitives that the source uses (`startswith`, `<` on `str`,
`str.strip()` truthiness, substring containment `in`, slicing `[3:]`) are embedded
as executable functions over `String.data` (the list of code points), because the
Lean built-ins for some of these do not reduce inside the kernel.  Python compares
strings lexicographically by code point, which is exactly `charListLtB` below.
-/

/-- Python `a < b` on lists of code points: lexicographic, shorter-is-smaller on a
common prefix.  This mirrors the core `List.lt` order used by Lean strings. -/
def charListLtB : List Char → List Char → Bool
  | _, [] => false
  | [], _ :: _ => true
  | a :: as, b :: bs => decide (a < b) || (a == b && charListLtB as bs)

/-- Python `a <= b` on strings: `a < b` or `a == b`. -/
def strLeB (a b : String) : Bool :=
  charListLtB a.data b.data || a == b

/-- The Python string order `<=` as a decidable relation, used to embed
`sorted(...)` on tag strings. -/
def strLeR (a b : String) : Prop := strLeB a b = true

instance : DecidableRel strLeR :=
  fun a b => inferInstanceAs (Decidable (strLeB a b = true))

/-- The characters stripped by Python `str.strip()` (ASCII whitespace; porcelain
status lines are ASCII). -/
def pyIsSpace (c : Char) : Bool :=
  c == ' ' || c == '\t' || c == '\n' || c == '\r' || c == Char.ofNat 11 || c == Char.ofNat 12

/-- Python `not line.strip()`: the line contains no non-whitespace character. -/
def isBlank (l : String) : Bool := l.data.all pyIsSpace

/-- Python `s.startswith(p)`. -/
def pyStartswith (s p : String) : Bool := List.isPrefixOf p.data s.data

/-- Python `pat in s` on the code-point lists: some suffix of `s` starts with
`pat`. -/
def hasSubstr (pat : List Char) : List Char → Bool
  | [] => pat.isPrefixOf []
  | c :: cs => pat.isPrefixOf (c :: cs) || hasSubstr pat cs

/-- The module-level `FILE_TAG_MAP` dict of `watcher.py`, in authored order. -/
def FILE_TAG_MAP : List (String × String) := [
  ("workspace/SOUL.md", "soul"),
  ("workspace/MEMORY.md", "mem"),
  ("workspace/IDENTITY.md", "idty"),
  ("workspace/TOOLS.md", "tools"),
  ("workspace/USER.md", "usr"),
  ("workspace/HEARTBEAT.md", "hbt"),
  ("workspace/BOOTSTRAP.md", "boot"),
  ("workspace/AGENTS.md", "agts"),
  ("workspace/projects/", "proj"),
  ("workspace/memory/", "mem-log"),
  ("openclaw.json", "conf"),
  ("agents/main/agent/models.json", "conf"),
  ("cron/", "cron")]

/-- The classifier loop of `get_stage_details` (watcher.py lines 108-113): first
rule, in table order, whose key is a string prefix of the path wins; otherwise the
`for`/`else` adds the sentinel `"misc"`. -/
def classifyPath : List (String × String) → String → String
  | [], _ => "misc"
  | (p, t) :: rest, path => if pyStartswith path p then t else classifyPath rest path

/-- Python `line for line in changed if line.strip()` (watcher.py line 103): the
non-blank porcelain status lines. -/
def filesOf (statusLines : List String) : List String :=
  statusLines.filter (fun l => !(isBlank l))

/-- Lines 118-122 of watcher.py: `tags_list = list(sorted(tags))`, then `"misc"`
(if present) is removed and appended at the end.  The Python `set` of tags is
embedded as `dedup` of the tag occurrence list, and `sorted` as an insertion sort
under the Python string order: since the order is linear and the input has no
duplicates, the sorted result is uniquely determined, so any correct sort is a
faithful embedding. -/
def renderTags (tags : List String) : List String :=
  let tl := List.insertionSort strLeR tags.dedup
  if "misc" ∈ tl then (tl.erase "misc") ++ ["misc"] else tl

/-- `BackupManager.get_stage_details` (watcher.py lines 96-124) as a function of
the porcelain status lines: returns the changed-file count and the rendered tag
list.  `line[3:]` (skip the two status characters and the separator) is
`String.drop l 3`; the `if not tags: tags.add("unknown")` substitution fires
exactly when no non-blank line produced a tag. -/
def get_stage_details (statusLines : List String) : Nat × List String :=
  let files := filesOf statusLines
  let tags := files.map (fun l => classifyPath FILE_TAG_MAP (String.drop l 3))
  let tags := if tags = [] then ["unknown"] else tags
  (files.length, renderTags tags)

/-- The commit message f-string of watcher.py line 143:
`f"Updated {file_count} files - {', '.join(tags)}"`. -/
def commitMsg (fileCount : Nat) (tags : List String) : String :=
  "Updated " ++ toString fileCount ++ " files - " ++ String.intercalate ", " tags

/-- Python exception classes relevant to `sync_once`.  All of them derive from
`Exception`; only `calledProcessError` is caught by the
`except subprocess.CalledProcessError` clause. -/
inductive PyExc where
  | calledProcessError
  | gitCommandError
  | valueError
  | fileNotFoundError
  deriving DecidableEq

/-- Side-effecting git operations performed by `commit_and_push_if_needed`, in
order: `repo.git.add(A=True)`, `repo.index.commit(msg, ...)`, `repo.git.push()`
(push the active branch to its upstream), `repo.remotes.origin.push()`, and the
`print(f"[watcher] Commit successful - {msg}")` success log. -/
inductive GitAction where
  | stageAll
  | commit (msg : String)
  | pushUpstream
  | pushOrigin
  | logSuccess (msg : String)
  deriving DecidableEq

/-- Oracle for the external collaborators of one `commit_and_push_if_needed` call:
`repoErr` is an exception raised by the version-control toolchain before the push
step (e.g. `Repo(...)` on an invalid repository); `statusLines` is the porcelain
output observed after staging; `upstreamPushOk` is whether `repo.git.push()`
succeeds (failure raises `GitCommandError`); `hasOrigin` is whether a remote named
`origin` is configured; `originPushOk` is whether the fallback
`repo.remotes.origin.push()` succeeds. -/
structure GitOracle where
  repoErr : Option PyExc
  statusLines : List String
  upstreamPushOk : Bool
  hasOrigin : Bool
  originPushOk : Bool
  deriving DecidableEq

/-- `BackupManager.commit_and_push_if_needed` (watcher.py lines 127-157): the list
of git actions performed, and the exception (if any) escaping the method.  The
push block is `try: repo.git.push(); print(...) except GitCommandError:` with the
fallback `repo.remotes.origin.push()` when `origin` exists and a bare `raise`
otherwise.  Note that the success log is printed only on the direct-push path. -/
def commit_and_push_if_needed (o : GitOracle) : List GitAction × Option PyExc :=
  match o.repoErr with
  | some e => ([], some e)
  | none =>
    let d := get_stage_details o.statusLines
    if d.1 = 0 then
      ([GitAction.stageAll], none)
    else
      let msg := commitMsg d.1 d.2
      if o.upstreamPushOk then
        ([GitAction.stageAll, GitAction.commit msg, GitAction.pushUpstream,
          GitAction.logSuccess msg], none)
      else if o.hasOrigin then
        ([GitAction.stageAll, GitAction.commit msg, GitAction.pushUpstream,
          GitAction.pushOrigin],
         if o.originPushOk then none else some PyExc.gitCommandError)
      else
        ([GitAction.stageAll, GitAction.commit msg, GitAction.pushUpstream],
         some PyExc.gitCommandError)

/-- Outcome of one `sync_once` call: the error-stream log lines (modelled by their
fixed message text, the interpolated exception repr elided), the git actions
performed, and the exception (if any) that propagates past `sync_once`. -/
structure SyncOutcome where
  errLogs : List String
  gitActions : List GitAction
  uncaught : Option PyExc
  deriving DecidableEq

/-- Whether `except subprocess.CalledProcessError` catches the exception. -/
def isCalledProcessError : PyExc → Bool
  | PyExc.calledProcessError => true
  | _ => false

/-- `BackupManager.sync_once` (watcher.py lines 159-173).  The first argument is
the outcome of `self.run_rsync()`: `Except.ok ()` on success, `Except.error e`
when it raises `e`.  Faithful to the source, `run_rsync` can raise exceptions
other than `CalledProcessError` (e.g. `ValueError` from `int(sudo_uid)` on a
malformed `SUDO_UID`, or `FileNotFoundError` when the `rsync` binary is absent),
and only `CalledProcessError` is caught by the first `except` clause; the second
phase is guarded by `except Exception`, which catches every modelled exception. -/
def sync_once (rsyncResult : Except PyExc Unit) (o : GitOracle) : SyncOutcome :=
  match rsyncResult with
  | Except.error e =>
    if isCalledProcessError e then ⟨["[watcher] rsync failed"], [], none⟩
    else ⟨[], [], some e⟩
  | Except.ok _ =>
    let p := commit_and_push_if_needed o
    match p.2 with
    | some _ => ⟨["[watcher] git commit/push failed"], p.1, none⟩
    | none => ⟨[], p.1, none⟩

/-- Mutable state of `DebouncedSyncHandler`: `_last_event_ts` and the pending
`threading.Timer`, modelled by its scheduled fire instant (`None` when no timer
has been created yet).  Instants are rationals standing for `time.time()`
values. -/
structure SchedState where
  lastEventTs : ℚ
  timer : Option ℚ
  deriving DecidableEq

/-- The state update of `on_any_event` (watcher.py lines 193-200) for a
notification at instant `now`: record `now` as the last event time, cancel any
existing timer, and arm a fresh timer `debounce` seconds in the future. -/
def on_any_event_arm (d : ℚ) (_s : SchedState) (now : ℚ) : SchedState :=
  { lastEventTs := now, timer := some (now + d) }

/-- The guard of `_flush_if_quiet` (watcher.py lines 202-210): the trigger firing
at instant `now` invokes `sync_once` unless
`now - self._last_event_ts < self.debounce_seconds`. -/
def flush_if_quiet_runs (d : ℚ) (s : SchedState) (now : ℚ) : Bool :=
  decide (d ≤ now - s.lastEventTs)

/-- Run of the debounce handler over a sorted stream of notification instants,
returning the instants at which `sync_once` executes.  An armed timer scheduled
at `ft` fires (at exactly `ft`) if the next notification arrives at or after
`ft`, and is cancelled by it otherwise; the trailing timer always fires. -/
def runSched (d : ℚ) (s : SchedState) : List ℚ → List ℚ
  | [] =>
    match s.timer with
    | none => []
    | some ft => if flush_if_quiet_runs d s ft then [ft] else []
  | t :: ts =>
    match s.timer with
    | none => runSched d (on_any_event_arm d s t) ts
    | some ft =>
      if ft ≤ t then
        (if flush_if_quiet_runs d s ft then [ft] else []) ++
          runSched d (on_any_event_arm d s t) ts
      else
        runSched d (on_any_event_arm d s t) ts

/-- Instants at which `sync_once` executes, starting from the initial handler
state (`_last_event_ts = 0.0`, no timer). -/
def syncTimes (d : ℚ) (ts : List ℚ) : List ℚ := runSched d ⟨0, none⟩ ts

/-- The filter at the top of `on_any_event` (watcher.py lines 188-191):
`if event.src_path and "/.git" in str(event.src_path): return`.  Returns `true`
when the notification is discarded before reaching the debounce state machine. -/
def on_any_event_discards (srcPath : String) : Bool :=
  !(srcPath == "") && hasSubstr "/.git".data srcPath.data

/-- Split a code-point list into `/`-separated path segments (accumulator holds
the current segment reversed). -/
def splitSegsAux (acc : List Char) : List Char → List (List Char)
  | [] => [acc.reverse]
  | c :: cs => if c == '/' then acc.reverse :: splitSegsAux [] cs else splitSegsAux (c :: acc) cs

/-- Modelled from the spec: "notifications whose path contains the target
repository's metadata directory name as a path segment are discarded".  The
source implements a plain substring test instead; this definition renders the
spec's path-segment reading (`".git"` occurs as a whole `/`-separated segment)
for comparison against `on_any_event_discards`. -/
def hasGitSegment (p : String) : Bool :=
  (splitSegsAux [] p.data).contains ".git".data

/-! ## Order lemmas for the embedded Python string comparison -/

theorem charListLtB_lt (as bs : List Char) : charListLtB as bs = true ↔ List.lt as bs := by
  induction as generalizing bs with
  | nil =>
    cases bs with
    | nil =>
      simp only [charListLtB]
      exact ⟨(fun h => nomatch h), (fun h => nomatch h)⟩
    | cons b bs =>
      simp only [charListLtB]
      exact ⟨(fun _ => List.lt.nil b bs), (fun _ => trivial)⟩
  | cons a as ih =>
    cases bs with
    | nil =>
      simp only [charListLtB]
      exact ⟨(fun h => nomatch h), (fun h => nomatch h)⟩
    | cons b bs =>
      simp only [charListLtB, Bool.or_eq_true, Bool.and_eq_true, decide_eq_true_eq,
        beq_iff_eq, ih]
      constructor
      · rintro (h | ⟨rfl, h⟩)
        · exact List.lt.head _ _ h
        · exact List.lt.tail (lt_irrefl a) (lt_irrefl a) h
      · intro h
        cases h with
        | head _ _ h => exact Or.inl h
        | tail h1 h2 h3 =>
          exact Or.inr ⟨le_antisymm (not_lt.mp h2) (not_lt.mp h1), h3⟩

theorem strLeB_le (a b : String) : strLeB a b = true ↔ a ≤ b := by
  rw [strLeB, Bool.or_eq_true, beq_iff_eq, charListLtB_lt, le_iff_lt_or_eq,
    String.lt_iff_toList_lt]
  constructor
  · rintro (h | rfl)
    · exact Or.inl ((List.lt_iff_lex_lt _ _).mp h)
    · exact Or.inr rfl
  · rintro (h | rfl)
    · exact Or.inl ((List.lt_iff_lex_lt _ _).mpr h)
    · exact Or.inr rfl

theorem strLeR_total (a b : String) : strLeR a b ∨ strLeR b a := by
  simp only [strLeR, strLeB_le]
  exact le_total a b

theorem strLeR_trans (a b c : String) : strLeR a b → strLeR b c → strLeR a c := by
  simp only [strLeR, strLeB_le]
  exact le_trans

theorem sorted_insertionSort_strLeR (l : List String) :
    List.Sorted strLeR (List.insertionSort strLeR l) :=
  @List.sorted_insertionSort String strLeR _ ⟨strLeR_total⟩ ⟨strLeR_trans⟩ l

/-! ## Lemmas about the tag pipeline -/

theorem classifyPath_mem_or (rules : List (String × String)) (path : String) :
    classifyPath rules path = "misc" ∨ classifyPath rules path ∈ rules.map Prod.snd := by
  induction rules with
  | nil => exact Or.inl rfl
  | cons r rest ih =>
    obtain ⟨p, t⟩ := r
    cases hr : pyStartswith path p with
    | true =>
      right
      simp [classifyPath, hr]
    | false =>
      rcases ih with h | h
      · left
        simpa [classifyPath, hr] using h
      · right
        simp only [classifyPath, hr, Bool.false_eq_true, if_false, List.map_cons,
          List.mem_cons]
        exact Or.inr h

theorem renderTags_mem (tags : List String) (x : String) :
    x ∈ renderTags tags ↔ x ∈ tags := by
  unfold renderTags
  have hperm : (List.insertionSort strLeR tags.dedup).Perm tags.dedup :=
    List.perm_insertionSort _ _
  have hnd : (List.insertionSort strLeR tags.dedup).Nodup :=
    hperm.nodup_iff.mpr (List.nodup_dedup _)
  have hmem : ∀ y : String, y ∈ List.insertionSort strLeR tags.dedup ↔ y ∈ tags :=
    fun y => hperm.mem_iff.trans List.mem_dedup
  by_cases hc : ("misc" : String) ∈ List.insertionSort strLeR tags.dedup
  · rw [if_pos hc, List.mem_append, hnd.mem_erase_iff]
    constructor
    · rintro (⟨_, hx⟩ | hx)
      · exact (hmem x).mp hx
      · simp only [List.mem_singleton] at hx
        subst hx
        exact (hmem _).mp hc
    · intro hx
      by_cases hxm : x = "misc"
      · subst hxm
        exact Or.inr (List.mem_singleton.mpr rfl)
      · exact Or.inl ⟨hxm, (hmem x).mpr hx⟩
  · rw [if_neg hc]
    exact hmem x

theorem renderTags_nodup (tags : List String) : (renderTags tags).Nodup := by
  unfold renderTags
  have hperm : (List.insertionSort strLeR tags.dedup).Perm tags.dedup :=
    List.perm_insertionSort _ _
  have hnd : (List.insertionSort strLeR tags.dedup).Nodup :=
    hperm.nodup_iff.mpr (List.nodup_dedup _)
  by_cases hc : ("misc" : String) ∈ List.insertionSort strLeR tags.dedup
  · rw [if_pos hc]
    refine List.Nodup.append ((List.erase_sublist _ _).nodup hnd) (List.nodup_singleton _) ?_
    intro x hx hx'
    simp only [List.mem_singleton] at hx'
    subst hx'
    exact ((hnd.mem_erase_iff).mp hx).1 rfl
  · rw [if_neg hc]
    exact hnd

theorem renderTags_sorted_structure (tags : List String) :
    (("misc" : String) ∉ renderTags tags → (renderTags tags).Sorted (· ≤ ·)) ∧
    (("misc" : String) ∈ renderTags tags →
      ∃ pre, renderTags tags = pre ++ ["misc"] ∧ pre.Sorted (· ≤ ·) ∧
        ("misc" : String) ∉ pre) := by
  have hsorted : (List.insertionSort strLeR tags.dedup).Sorted (· ≤ ·) :=
    (sorted_insertionSort_strLeR tags.dedup).imp (fun h => (strLeB_le _ _).mp h)
  have hperm : (List.insertionSort strLeR tags.dedup).Perm tags.dedup :=
    List.perm_insertionSort _ _
  have hnd : (List.insertionSort strLeR tags.dedup).Nodup :=
    hperm.nodup_iff.mpr (List.nodup_dedup _)
  unfold renderTags
  by_cases hc : ("misc" : String) ∈ List.insertionSort strLeR tags.dedup
  · rw [if_pos hc]
    constructor
    · intro hnot
      exact absurd (List.mem_append.mpr (Or.inr (List.mem_singleton.mpr rfl))) hnot
    · intro _
      refine ⟨(List.insertionSort strLeR tags.dedup).erase "misc", rfl, ?_, ?_⟩
      · exact List.Pairwise.sublist (List.erase_sublist _ _) hsorted
      · intro hmem
        exact ((hnd.mem_erase_iff).mp hmem).1 rfl
  · rw [if_neg hc]
    exact ⟨fun _ => hsorted, fun hmem => absurd hmem hc⟩

theorem get_stage_details_snd (lines : List String) (hne : filesOf lines ≠ []) :
    (get_stage_details lines).2 =
      renderTags ((filesOf lines).map
        (fun l => classifyPath FILE_TAG_MAP (String.drop l 3))) := by
  have hmap : (filesOf lines).map (fun l => classifyPath FILE_TAG_MAP (String.drop l 3)) ≠ [] := by
    simpa using hne
  simp only [get_stage_details]
  rw [if_neg hmap]

/-! ## Substring characterisation for the event filter -/

theorem hasSubstr_iff (pat l : List Char) :
    hasSubstr pat l = true ↔ ∃ l1 l2, l = l1 ++ pat ++ l2 := by
  induction l with
  | nil =>
    rw [hasSubstr, List.isPrefixOf_iff_prefix]
    constructor
    · intro h
      refine ⟨[], [], ?_⟩
      simp [List.prefix_nil.mp h]
    · rintro ⟨l1, l2, h⟩
      have h' := h.symm
      simp only [List.append_eq_nil] at h'
      simp [h'.1.2]
  | cons c cs ih =>
    rw [hasSubstr, Bool.or_eq_true, ih, List.isPrefixOf_iff_prefix]
    constructor
    · rintro (⟨t, ht⟩ | ⟨l1, l2, h⟩)
      · exact ⟨[], t, by simp [← ht]⟩
      · exact ⟨c :: l1, l2, by simp [h]⟩
    · rintro ⟨l1, l2, h⟩
      cases l1 with
      | nil =>
        left
        exact ⟨l2, by simpa using h.symm⟩
      | cons x l1 =>
        right
        simp only [List.cons_append] at h
        injection h with h1 h2
        exact ⟨l1, l2, h2⟩

/-! ## Claims -/

/-- C6: for every path string the classifier returns exactly one tag, namely the tag
of the first rule (in the table's declared order) whose key is a string prefix of the
path, with sentinel `"misc"` when no rule matches; and the result is order-sensitive:
two rule tables differing only in rule order classify an ambiguous path
differently. -/
theorem C6_classifier_first_match (rules : List (String × String)) (path : String) :
    (classifyPath rules path =
      ((rules.find? (fun r => pyStartswith path r.1)).map Prod.snd).getD "misc") ∧
    (classifyPath [("workspace/", "ws"), ("workspace/SOUL.md", "soul")]
        "workspace/SOUL.md" = "ws" ∧
      classifyPath [("workspace/SOUL.md", "soul"), ("workspace/", "ws")]
        "workspace/SOUL.md" = "soul") := by
  constructor
  · induction rules with
    | nil => rfl
    | cons r rest ih =>
      obtain ⟨p, t⟩ := r
      cases hr : pyStartswith path p with
      | true =>
        rw [List.find?_cons_of_pos _ (by simpa using hr)]
        simp [classifyPath, hr]
      | false =>
        rw [classifyPath, if_neg (by simp [hr]), List.find?_cons_of_neg _ (by simp [hr])]
        exact ih
  · exact ⟨by decide, by decide⟩

/-- C7: for every non-empty list of changed paths the rendered tag list holds exactly
the distinct derived tags, sorted in ascending string order, except that `"misc"`,
when present, always comes last. -/
theorem C7_sorted_tags_misc_last (lines : List String) (hne : filesOf lines ≠ []) :
    ((get_stage_details lines).2.Nodup ∧
      (∀ t, t ∈ (get_stage_details lines).2 ↔
        t ∈ (filesOf lines).map (fun l => classifyPath FILE_TAG_MAP (String.drop l 3)))) ∧
    (("misc" : String) ∉ (get_stage_details lines).2 →
      (get_stage_details lines).2.Sorted (· ≤ ·)) ∧
    (("misc" : String) ∈ (get_stage_details lines).2 →
      ∃ pre, (get_stage_details lines).2 = pre ++ ["misc"] ∧ pre.Sorted (· ≤ ·) ∧
        ("misc" : String) ∉ pre) := by
  rw [get_stage_details_snd lines hne]
  exact ⟨⟨renderTags_nodup _, fun t => renderTags_mem _ t⟩,
    (renderTags_sorted_structure _).1, (renderTags_sorted_structure _).2⟩

/-- Witness for C7 at a concrete two-line porcelain output. -/
theorem C7_sorted_tags_misc_last_witness :
    (get_stage_details ["A  cron/x", "?? zzz"]).2.Nodup :=
  (C7_sorted_tags_misc_last ["A  cron/x", "?? zzz"] (by decide)).1.1

/-- C9: for every non-empty list of changed-path status lines the derived tag list is
non-empty (each path contributes a matched tag or the `"misc"` fallback), so the
`"unknown"` substitution is unreachable and `"unknown"` never appears in the rendered
tag list. -/
theorem C9_unknown_unreachable (lines : List String) (hne : filesOf lines ≠ []) :
    (filesOf lines).map (fun l => classifyPath FILE_TAG_MAP (String.drop l 3)) ≠ [] ∧
    ("unknown" : String) ∉ (get_stage_details lines).2 := by
  have hmap : (filesOf lines).map (fun l => classifyPath FILE_TAG_MAP (String.drop l 3)) ≠ [] := by
    simpa using hne
  refine ⟨hmap, ?_⟩
  rw [get_stage_details_snd lines hne]
  intro hmem
  rw [renderTags_mem, List.mem_map] at hmem
  obtain ⟨l, _, hl⟩ := hmem
  rcases classifyPath_mem_or FILE_TAG_MAP (String.drop l 3) with h | h
  · rw [hl] at h
    exact absurd h (by decide)
  · rw [hl] at h
    exact absurd h (by decide)

/-- Witness for C9 at a concrete one-line porcelain output. -/
theorem C9_unknown_unreachable_witness :
    ("unknown" : String) ∉ (get_stage_details ["A  somefile"]).2 :=
  (C9_unknown_unreachable ["A  somefile"] (by decide)).2

/-- C10: every porcelain status line is classified on the line with exactly its first
three characters removed, and every non-blank line contributes exactly one to the
file count; in particular a rename line `R  old -> new` counts once and is
classified against the combined `old -> new` string (which here matches the `cron/`
rule), not against the new path alone (which would fall back to `"misc"`). -/
theorem C10_status_line_handling :
    (∀ lines : List String, (get_stage_details lines).1 = (filesOf lines).length) ∧
    String.drop "R  cron/old -> workspace/new" 3 = "cron/old -> workspace/new" ∧
    get_stage_details ["R  cron/old -> workspace/new"] = (1, ["cron"]) ∧
    classifyPath FILE_TAG_MAP "workspace/new" = "misc" :=
  ⟨fun _ => rfl, by decide, by decide, by decide⟩

/-- C2: whenever a sync pass commits (non-zero changed-path count `N` with rendered
tag list `ts`), the commit message is exactly `"Updated {N} files - {ts comma-space
joined}"`; in particular for changed paths `workspace/SOUL.md` and `cron/job1` the
message is `"Updated 2 files - cron, soul"`. -/
theorem C2_commit_message (o : GitOracle) (h0 : o.repoErr = none)
    (hn : (get_stage_details o.statusLines).1 ≠ 0) :
    (∀ m, GitAction.commit m ∈ (commit_and_push_if_needed o).1 ↔
      m = commitMsg (get_stage_details o.statusLines).1 (get_stage_details o.statusLines).2) ∧
    commit_and_push_if_needed ⟨none, ["A  workspace/SOUL.md", "A  cron/job1"], true, true, true⟩ =
      ([GitAction.stageAll, GitAction.commit "Updated 2 files - cron, soul",
        GitAction.pushUpstream, GitAction.logSuccess "Updated 2 files - cron, soul"],
       none) := by
  constructor
  · intro m
    simp only [commit_and_push_if_needed, h0, if_neg hn]
    by_cases hup : o.upstreamPushOk = true
    · rw [if_pos hup]
      simp [eq_comm]
    · rw [if_neg hup]
      by_cases ho : o.hasOrigin = true
      · rw [if_pos ho]
        simp [eq_comm]
      · rw [if_neg ho]
        simp [eq_comm]
  · decide

/-- Witness for C2: the concrete two-file scenario from the spec. -/
theorem C2_commit_message_witness :
    commit_and_push_if_needed ⟨none, ["A  workspace/SOUL.md", "A  cron/job1"], true, true, true⟩ =
      ([GitAction.stageAll, GitAction.commit "Updated 2 files - cron, soul",
        GitAction.pushUpstream, GitAction.logSuccess "Updated 2 files - cron, soul"],
       none) :=
  (C2_commit_message ⟨none, ["A  workspace/SOUL.md", "A  cron/job1"], true, true, true⟩
    rfl (by decide)).2

/-- C3: in every sync pass that reaches the git phase, staging all changes is the
first git action, before the changed-path count is evaluated; and with a zero count
the pass performs no commit and no push (the action trace is staging alone). -/
theorem C3_unconditional_stage_zero_skip :
    (∀ o : GitOracle, o.repoErr = none →
      (commit_and_push_if_needed o).1.head? = some GitAction.stageAll) ∧
    (∀ o : GitOracle, o.repoErr = none → (get_stage_details o.statusLines).1 = 0 →
      commit_and_push_if_needed o = ([GitAction.stageAll], none)) := by
  constructor
  · intro o h0
    simp only [commit_and_push_if_needed, h0]
    by_cases hz : (get_stage_details o.statusLines).1 = 0
    · rw [if_pos hz]
      rfl
    · rw [if_neg hz]
      by_cases hup : o.upstreamPushOk = true
      · rw [if_pos hup]
        rfl
      · rw [if_neg hup]
        by_cases ho : o.hasOrigin = true
        · rw [if_pos ho]
          rfl
        · rw [if_neg ho]
          rfl
  · intro o h0 hz
    simp only [commit_and_push_if_needed, h0, if_pos hz]

/-- Witness for C3: a pass whose porcelain output is empty stages and stops. -/
theorem C3_unconditional_stage_zero_skip_witness :
    commit_and_push_if_needed ⟨none, [], true, true, true⟩ = ([GitAction.stageAll], none) :=
  (C3_unconditional_stage_zero_skip).2 ⟨none, [], true, true, true⟩ rfl (by decide)

/-- Counterexample for C4: the claim that `sync_once` never lets a failure propagate
past its own boundary is false on the code.  `run_rsync` can raise exceptions other
than `CalledProcessError` (e.g. `ValueError` from `int(sudo_uid)` when the
environment variable `SUDO_UID` is malformed, or `FileNotFoundError` when the
`rsync` binary is missing), and the first `except` clause of `sync_once` catches
only `subprocess.CalledProcessError`, so such an exception escapes `sync_once`. -/
theorem C4_uncaught_counterexample :
    sync_once (Except.error PyExc.valueError) ⟨none, [], true, true, true⟩ =
      ⟨[], [], some PyExc.valueError⟩ := by decide

/-- C4 (amended): a mirror failure with non-zero exit (`CalledProcessError`) is
caught and logged and the pass ends with no git action attempted; every exception
from the version-control phase is caught and logged rather than propagated; but a
mirror-phase exception other than `CalledProcessError` propagates past
`sync_once`. -/
theorem C4_exception_boundary (o : GitOracle) (e : PyExc)
    (he : (commit_and_push_if_needed o).2 = some e) :
    sync_once (Except.error PyExc.calledProcessError) o =
      ⟨["[watcher] rsync failed"], [], none⟩ ∧
    (sync_once (Except.ok ()) o).uncaught = none ∧
    sync_once (Except.ok ()) o =
      ⟨["[watcher] git commit/push failed"], (commit_and_push_if_needed o).1, none⟩ := by
  refine ⟨rfl, ?_, ?_⟩
  · rcases h2 : (commit_and_push_if_needed o).2 with _ | e2 <;>
      simp [sync_once, h2]
  · simp [sync_once, he]

/-- Witness for C4 at a pass whose push fails with no origin fallback configured. -/
theorem C4_exception_boundary_witness :
    sync_once (Except.error PyExc.calledProcessError) ⟨none, ["A  somefile"], false, false, true⟩ =
      ⟨["[watcher] rsync failed"], [], none⟩ :=
  (C4_exception_boundary ⟨none, ["A  somefile"], false, false, true⟩
    PyExc.gitCommandError (by decide)).1

/-- Counterexample for C5: the claim that the pass reports success by logging the
commit message on push success including fallback success is false on the code.
When the upstream push raises `GitCommandError` and the fallback push to `origin`
succeeds, the method returns without any success log (the `print` sits inside the
`try` block, after `repo.git.push()`). -/
theorem C5_fallback_no_log_counterexample :
    commit_and_push_if_needed ⟨none, ["A  cron/job1"], false, true, true⟩ =
      ([GitAction.stageAll, GitAction.commit "Updated 1 files - cron",
        GitAction.pushUpstream, GitAction.pushOrigin], none) := by decide

/-- C5 (amended): after a commit the pass pushes the current branch to its upstream;
on a toolchain-level failure it falls back to pushing to the `origin` remote when
one is configured (and no success is logged on that path), and propagates the
failure when no `origin` remote exists; the success log with the commit message is
emitted only when the direct upstream push succeeds. -/
theorem C5_push_upstream_then_fallback (o : GitOracle) (h0 : o.repoErr = none)
    (hn : (get_stage_details o.statusLines).1 ≠ 0) :
    GitAction.pushUpstream ∈ (commit_and_push_if_needed o).1 ∧
    (o.upstreamPushOk = true →
      (commit_and_push_if_needed o).2 = none ∧
      GitAction.logSuccess (commitMsg (get_stage_details o.statusLines).1
        (get_stage_details o.statusLines).2) ∈ (commit_and_push_if_needed o).1) ∧
    (o.upstreamPushOk = false → o.hasOrigin = true →
      GitAction.pushOrigin ∈ (commit_and_push_if_needed o).1 ∧
      (o.originPushOk = true → (commit_and_push_if_needed o).2 = none) ∧
      ∀ m, GitAction.logSuccess m ∉ (commit_and_push_if_needed o).1) ∧
    (o.upstreamPushOk = false → o.hasOrigin = false →
      GitAction.pushOrigin ∉ (commit_and_push_if_needed o).1 ∧
      (commit_and_push_if_needed o).2 = some PyExc.gitCommandError) := by
  simp only [commit_and_push_if_needed, h0, if_neg hn]
  by_cases hup : o.upstreamPushOk = true
  · rw [if_pos hup]
    refine ⟨by simp, fun _ => ⟨rfl, by simp⟩, ?_, ?_⟩
    · intro h _
      rw [hup] at h
      cases h
    · intro h _
      rw [hup] at h
      cases h
  · rw [if_neg hup]
    by_cases ho : o.hasOrigin = true
    · rw [if_pos ho]
      refine ⟨by simp, fun h => absurd h hup, fun _ _ => ⟨by simp, ?_, by simp⟩, ?_⟩
      · intro hop
        rw [if_pos hop]
      · intro _ h
        rw [ho] at h
        cases h
    · rw [if_neg ho]
      refine ⟨by simp, fun h => absurd h hup, ?_, fun _ _ => ⟨by simp, rfl⟩⟩
      intro _ h
      rw [h] at ho
      exact absurd rfl ho

/-- Witness for C5 at the fallback-success scenario. -/
theorem C5_push_upstream_then_fallback_witness :
    GitAction.pushUpstream ∈
      (commit_and_push_if_needed ⟨none, ["A  cron/job1"], false, true, true⟩).1 :=
  (C5_push_upstream_then_fallback ⟨none, ["A  cron/job1"], false, true, true⟩ rfl (by decide)).1

/-- C1: the deferred trigger invokes the sync exactly when at least the debounce
interval has elapsed since the most recent notification; every notification cancels
the pending trigger and reschedules one at `now + debounce`; a trigger that fires at
its scheduled time `t0 + d` after a newer notification `tn > t0` has advanced the
deadline is a no-op; and in the spec scenarios with a 5-second window, notifications
at 0, 1, 2 produce exactly one sync at t = 7 and notifications at 0, 10 produce two
syncs (at 5 and 15). -/
theorem C1_debounce_reset_on_activity :
    (∀ (d : ℚ) (s : SchedState) (now : ℚ),
      on_any_event_arm d s now = ⟨now, some (now + d)⟩) ∧
    (∀ (d : ℚ) (s : SchedState) (now : ℚ),
      flush_if_quiet_runs d s now = true ↔ d ≤ now - s.lastEventTs) ∧
    (∀ (d t0 tn : ℚ) (tm : Option ℚ), t0 < tn →
      flush_if_quiet_runs d ⟨tn, tm⟩ (t0 + d) = false) ∧
    (syncTimes 5 [0, 1, 2] = [7] ∧ syncTimes 5 [0, 10] = [5, 15]) := by
  refine ⟨fun d s now => rfl, fun d s now => by simp [flush_if_quiet_runs], ?_, ?_, ?_⟩
  · intro d t0 tn tm h
    simp only [flush_if_quiet_runs, decide_eq_false_iff_not, not_le]
    linarith
  · norm_num [syncTimes, runSched, on_any_event_arm, flush_if_quiet_runs]
  · norm_num [syncTimes, runSched, on_any_event_arm, flush_if_quiet_runs]

/-- Witness for C1: with a 5-second window, a trigger scheduled by a notification at
t = 0 that fires at t = 5 after a newer notification at t = 1 is a no-op. -/
theorem C1_debounce_reset_on_activity_witness :
    flush_if_quiet_runs 5 ⟨1, some 6⟩ (0 + 5) = false :=
  C1_debounce_reset_on_activity.2.2.1 5 0 1 (some 6) zero_lt_one

/-- Counterexample for C8: the claim that a notification is discarded if and only if
its path contains `".git"` as a path segment is false on the code, which tests for
the substring `"/.git"`: the path `/srv/app/.gitignore` has no `".git"` segment yet
is discarded, and the relative path `.git/config` has a `".git"` segment yet is not
discarded. -/
theorem C8_git_filter_counterexample :
    on_any_event_discards "/srv/app/.gitignore" = true ∧
    hasGitSegment "/srv/app/.gitignore" = false ∧
    on_any_event_discards ".git/config" = false ∧
    hasGitSegment ".git/config" = true := by decide

/-- C8 (amended): a change notification is discarded before reaching the debounce
state machine if and only if its path is non-empty and contains `"/.git"` as a
substring anywhere (not: contains `".git"` as a path segment). -/
theorem C8_discard_is_substring_test (p : String) :
    on_any_event_discards p = true ↔
      (p ≠ "" ∧ ∃ l1 l2, p.data = l1 ++ "/.git".data ++ l2) := by
  simp only [on_any_event_discards, Bool.and_eq_true, Bool.not_eq_true',
    beq_eq_false_iff_ne, hasSubstr_iff]
